import Mathlib

/-!
Shallow embedding of the image-to-webp converter
(`image_to_webp.py`, `config.py`, `png_to_webp.py`).

Filesystem state is modelled explicitly: the set of existing paths is a
`List String`, free disk space and file sizes are oracle values carried in an
environment record, and every library call that can raise is modelled as an
`Except` value in that environment.  Python floats in the disk-space
arithmetic are modelled over `ℚ`; the constants involved (`0.75`, `1024*1024`)
are exactly representable, so the rational model agrees with the binary64
computation on all realistic sizes.
-/

namespace ImageToWebp

/-! ### String helpers modelling Python `str` and posix `os.path` operations -/

/-- Python `str.lower()` (ASCII-relevant part). -/
def lowerStr (s : String) : String := String.mk (s.toList.map Char.toLower)

/-- Python `str.endswith(t)`. -/
def strEndsWith (s t : String) : Bool := t.toList.isSuffixOf s.toList

/-- Python `str.startswith(t)`. -/
def strStartsWith (s t : String) : Bool := t.toList.isPrefixOf s.toList

/-- Index of the last occurrence of `c` in `l` (Python `str.rfind`,
`none` standing for `-1`). -/
def rfindIdx (l : List Char) (c : Char) : Option Nat :=
  match l.reverse.findIdx? (· == c) with
  | some k => some (l.length - 1 - k)
  | none => none

/-- `posixpath.dirname`: everything before the last `/`, with trailing
slashes stripped unless the head is all slashes. -/
def dirname (p : String) : String :=
  let l := p.toList
  let i := match rfindIdx l '/' with
    | some k => k + 1
    | none => 0
  let head := l.take i
  if head ≠ [] ∧ ¬ (head.all (· == '/')) then
    String.mk ((head.reverse.dropWhile (· == '/')).reverse)
  else
    String.mk head

/-- `posixpath.basename`: everything after the last `/`. -/
def basename (p : String) : String :=
  let l := p.toList
  let i := match rfindIdx l '/' with
    | some k => k + 1
    | none => 0
  String.mk (l.drop i)

/-- `posixpath.splitext`: split off the extension at the last dot, provided
it lies after the last separator and the name part before it is not all
dots (so `.bashrc` has no extension). -/
def splitext (p : String) : String × String :=
  let l := p.toList
  let sepIdx : Int := match rfindIdx l '/' with
    | some k => (k : Int)
    | none => -1
  let dotIdx : Int := match rfindIdx l '.' with
    | some k => (k : Int)
    | none => -1
  if sepIdx < dotIdx then
    let start : Nat := (sepIdx + 1).toNat
    let d : Nat := dotIdx.toNat
    if ((l.take d).drop start).all (· == '.') then (p, "")
    else (String.mk (l.take d), String.mk (l.drop d))
  else (p, "")

/-- `posixpath.join(a, b)` for a single join step. -/
def joinPath (a b : String) : String :=
  if strStartsWith b "/" then b
  else if a = "" || strEndsWith a "/" then a ++ b
  else a ++ "/" ++ b

/-- `pathlib.Path(p).with_suffix(".webp")` as used for the default output
path: replace the extension with `.webp`. -/
def withSuffixWebp (p : String) : String := (splitext p).1 ++ ".webp"

/-! ### Decimal rendering of the collision counter (Python `str(counter)`)

Defined with explicit fuel so that it evaluates by kernel reduction; the
fuel `n + 1` always suffices because the value shrinks by a factor of ten
each step. -/

/-- The character for a single decimal digit. -/
def digitChar (d : Nat) : Char := Char.ofNat (48 + d)

/-- Decimal digits of `n`, most significant first, with fuel. -/
def natToStrAux : Nat → Nat → List Char
  | 0, _ => []
  | fuel + 1, n =>
    if n < 10 then [digitChar n]
    else natToStrAux fuel (n / 10) ++ [digitChar (n % 10)]

/-- Python `str(n)` for a natural number. -/
def natToStr (n : Nat) : String := String.mk (natToStrAux (n + 1) n)

/-- Numeric value of a decimal digit character (left inverse used to prove
`natToStr` injective). -/
def digitVal (c : Char) : Nat := c.toNat - 48

/-- Value of a most-significant-first digit list. -/
def valDigits (l : List Char) : Nat := l.foldl (fun a c => a * 10 + digitVal c) 0

/-! ### `generate_unique_filename` (image_to_webp.py, lines 99-129)

`os.path.exists` is modelled as membership in the list `fs` of paths that
exist on disk.  The Python `while` loop is unfolded with fuel
`fs.length + 1`; the pigeonhole lemmas below show that this fuel always
suffices, so the fuelled function computes exactly the loop's result. -/

/-- The `while os.path.exists(...): counter += 1` search: first `c' ≥ c`
with `occ (mk c') = false`, explored with the given fuel. -/
def findFree (occ : String → Bool) (mk : Nat → String) : Nat → Nat → Nat
  | 0, c => c
  | fuel + 1, c => if occ (mk c) then findFree occ mk fuel (c + 1) else c

/-- `generate_unique_filename(output_path, prefix, suffix)` against the
existing-path list `fs`. -/
def generate_unique_filename (fs : List String) (output_path : String)
    (pre suffix : String) : String :=
  let directory := dirname output_path
  let filename := basename output_path
  let base := (splitext filename).1
  let ext := (splitext filename).2
  -- Python: `if prefix or suffix: base = f"{prefix}{base}{suffix}"`
  let base := if (pre != "") || (suffix != "") then pre ++ base ++ suffix else base
  let new_path := joinPath directory (base ++ ext)
  if new_path ∈ fs then
    let cand := fun c => joinPath directory (base ++ "(" ++ natToStr c ++ ")" ++ ext)
    cand (findFree (fun p => decide (p ∈ fs)) cand (fs.length + 1) 1)
  else new_path

/-- The collision-free name first tried by `generate_unique_filename`:
`{prefix}{basename}{suffix}` plus the original extension, in the directory
of `output_path`. -/
def uniqueBase (p pre suffix : String) : String :=
  let base := (splitext (basename p)).1
  if (pre != "") || (suffix != "") then pre ++ base ++ suffix else base

/-- The first-choice output path of `generate_unique_filename`. -/
def uniqueTarget (p pre suffix : String) : String :=
  joinPath (dirname p) (uniqueBase p pre suffix ++ (splitext (basename p)).2)

/-- The `n`-th fallback output path, with `(n)` inserted before the
extension. -/
def uniqueCand (p pre suffix : String) (n : Nat) : String :=
  joinPath (dirname p)
    (uniqueBase p pre suffix ++ "(" ++ natToStr n ++ ")" ++ (splitext (basename p)).2)

/-! ### Disk-space check and size estimate (image_to_webp.py, lines 26-97)

`psutil.disk_usage(path).free` and `os.path.getsize` are oracle values;
`none` models the call raising.  The float arithmetic is carried out
over `ℚ`. -/

/-- `MIN_FREE_SPACE_MB = 500`. -/
def MIN_FREE_SPACE_MB : ℚ := 500

/-- `check_disk_space(path, required_mb)`: `free / (1024*1024) >= required_mb`,
and `False` when the free-space query raises. -/
def check_disk_space (freeBytes : Option Nat) (required_mb : ℚ) : Bool :=
  match freeBytes with
  | some free => decide ((free : ℚ) / (1024 * 1024) ≥ required_mb)
  | none => false

/-- `estimate_output_size(input_path)`: `size * 0.75 / (1024*1024)` MB, with
`1.0` MB as the fallback when `os.path.getsize` raises. -/
def estimate_output_size (getsize : Option Nat) : ℚ :=
  match getsize with
  | some s => ((s : ℚ) * (3 / 4)) / (1024 * 1024)
  | none => 1

/-! ### `convert_to_webp` (image_to_webp.py, lines 141-203) -/

/-- A Python exception raised by a library call, split by whether it is
caught by `except (IOError, SyntaxError)` in the inner `try`. -/
inductive PyExc where
  | ioOrSyntax (msg : String)
  | other (msg : String)
deriving DecidableEq

/-- The errors carried by a failure outcome of `convert_to_webp`:
the three `ConversionError` messages and the wrapped
`Exception(f"Unexpected error: ...")`. -/
inductive ConvErr where
  | inputNotFound (path : String)
  | insufficientSpace (neededMb : ℚ)
  | corruptedImage (detail : String)
  | unexpected (detail : String)
deriving DecidableEq

/-- Environment of one `convert_to_webp` call: results of the library and
OS calls it makes, in order. -/
structure ConvEnv where
  /-- `os.path.exists(input_path)` -/
  inputExists : Bool
  /-- `os.path.getsize(input_path)`; `none` = raises -/
  getsize : Option Nat
  /-- `psutil.disk_usage(dirname(input_path)).free`; `none` = raises -/
  diskFreeBytes : Option Nat
  /-- `Image.open` + `verify` + reopen -/
  openVerify : Except PyExc Unit
  /-- `os.makedirs(dirname(output_path), exist_ok=True)` -/
  makedirs : Except PyExc Unit
  /-- the paths that exist on disk, for `generate_unique_filename` -/
  fs : List String
  /-- `img.save(output_path, 'WEBP', ...)` -/
  save : Except PyExc Unit

/-- The outcome tuple `(success, input_path, output_path-or-error)`. -/
abbrev ConvOutcome := Bool × String × (ConvErr ⊕ String)

/-- `convert_to_webp`: every exception is caught at the function boundary
and turned into a failure outcome (`except ConversionError` /
`except Exception` at lines 200-203).  `copy_timestamps` catches its own
errors and never changes the outcome, so it does not appear. -/
def convert_to_webp (env : ConvEnv) (input_path : String)
    (output_path : Option String) (quality : Nat)
    (preserve_timestamps : Bool) (lossless : Bool)
    (pre suffix : String) : ConvOutcome :=
  if env.inputExists = false then
    (false, input_path, Sum.inl (ConvErr.inputNotFound input_path))
  else
    let estimated_size := estimate_output_size env.getsize
    if check_disk_space env.diskFreeBytes (estimated_size + MIN_FREE_SPACE_MB) = false then
      (false, input_path, Sum.inl (ConvErr.insufficientSpace (estimated_size + MIN_FREE_SPACE_MB)))
    else
      match env.openVerify with
      | Except.error (PyExc.ioOrSyntax m) =>
          (false, input_path, Sum.inl (ConvErr.corruptedImage m))
      | Except.error (PyExc.other m) =>
          (false, input_path, Sum.inl (ConvErr.unexpected m))
      | Except.ok _ =>
        let out0 := match output_path with
          | some p => p
          | none => withSuffixWebp input_path
        match env.makedirs with
        | Except.error (PyExc.ioOrSyntax m) =>
            (false, input_path, Sum.inl (ConvErr.corruptedImage m))
        | Except.error (PyExc.other m) =>
            (false, input_path, Sum.inl (ConvErr.unexpected m))
        | Except.ok _ =>
          let out := generate_unique_filename env.fs out0 pre suffix
          match env.save with
          | Except.error (PyExc.ioOrSyntax m) =>
              (false, input_path, Sum.inl (ConvErr.corruptedImage m))
          | Except.error (PyExc.other m) =>
              (false, input_path, Sum.inl (ConvErr.unexpected m))
          | Except.ok _ => (true, input_path, Sum.inr out)

/-! ### `process_directory` (image_to_webp.py, lines 205-299) -/

/-- `SUPPORTED_FORMATS` (line 24). -/
def SUPPORTED_FORMATS : List String :=
  [".png", ".jpg", ".jpeg", ".gif", ".bmp", ".tiff"]

/-- The discovery filter: `any(file.lower().endswith(ext) for ext in
SUPPORTED_FORMATS)`. -/
def isSupported (file : String) : Bool :=
  SUPPORTED_FORMATS.any (fun ext => strEndsWith (lowerStr file) ext)

/-- The files collected by the discovery walk (lines 231-243): those whose
lowercased name ends with a supported extension. -/
def discoverFiles (files : List String) : List String := files.filter isSupported

/-- `future.result()` in the collection loop: either the outcome tuple of
`convert_to_webp`, or it raises (caught at lines 290-292). -/
inductive FutureOutcome where
  | completed (result : ConvOutcome)
  | raised (msg : String)

/-- The aggregate of the collection loop: the `successful` and `failed`
counters, and the input files for which `os.remove` was invoked. -/
structure BatchResult where
  successful : Nat
  failed : Nat
  deleted : List String
deriving DecidableEq

/-- The result-collection loop (lines 277-294): one recorded outcome per
submitted future; a success with `preserve_originals = false` triggers
deletion of the input. -/
def processResults (preserve_originals : Bool) :
    List (String × FutureOutcome) → BatchResult
  | [] => ⟨0, 0, []⟩
  | (input_path, fr) :: rest =>
    let r := processResults preserve_originals rest
    match fr with
    | FutureOutcome.completed result =>
      if result.1 then
        { successful := r.successful + 1, failed := r.failed,
          deleted := if preserve_originals then r.deleted else input_path :: r.deleted }
      else
        { r with failed := r.failed + 1 }
    | FutureOutcome.raised _ => { r with failed := r.failed + 1 }

/-- `process_directory`: discover the supported files, submit one
conversion per file (the `oracle` gives each future's result), and collect
the outcomes. -/
def process_directory (files : List String) (oracle : String → FutureOutcome)
    (preserve_originals : Bool) : BatchResult :=
  processResults preserve_originals
    ((discoverFiles files).map (fun f => (f, oracle f)))

/-! ### Configuration (`config.py`) -/

/-- A settings bundle: the four keys of every profile dict. -/
structure ProfileSettings where
  quality : Nat
  lossless : Bool
  preserve_timestamps : Bool
  preserve_originals : Bool
deriving DecidableEq

/-- The `high_quality` preset. -/
def high_quality : ProfileSettings := ⟨95, true, true, true⟩

/-- The `balanced` preset (also the hard-coded fallback of `get_profile`). -/
def balanced : ProfileSettings := ⟨80, false, true, true⟩

/-- The `web_optimized` preset. -/
def web_optimized : ProfileSettings := ⟨75, false, false, true⟩

/-- The `space_saver` preset. -/
def space_saver : ProfileSettings := ⟨60, false, false, false⟩

/-- `PRESET_PROFILES` (config.py, lines 11-36). -/
def PRESET_PROFILES : List (String × ProfileSettings) :=
  [("high_quality", high_quality), ("balanced", balanced),
   ("web_optimized", web_optimized), ("space_saver", space_saver)]

/-- Dict lookup over an association list (first match wins, matching the
update-by-prepend model of dict assignment below). -/
def lookupProfile : String → List (String × ProfileSettings) → Option ProfileSettings
  | _, [] => none
  | n, (k, v) :: rest => if n = k then some v else lookupProfile n rest

/-- The mutable parts of `Config.config` that the claims depend on. -/
structure Cfg where
  default_profile : String
  custom_profiles : List (String × ProfileSettings)
deriving DecidableEq

/-- `Config.get_profile` (config.py, lines 74-86): empty or missing name
falls back to the default profile; unknown names fall back to the
`balanced` preset. -/
def get_profile (c : Cfg) (profile_name : Option String) : ProfileSettings :=
  let name := match profile_name with
    | none => c.default_profile
    | some n => if n = "" then c.default_profile else n
  match lookupProfile name c.custom_profiles with
  | some s => s
  | none =>
    match lookupProfile name PRESET_PROFILES with
    | some s => s
    | none => balanced

/-- `Config.save_custom_profile`: dict assignment, modelled by prepending
(the first-match `lookupProfile` then sees the new value). -/
def save_custom_profile (c : Cfg) (name : String) (s : ProfileSettings) : Cfg :=
  { c with custom_profiles := (name, s) :: c.custom_profiles }

/-- Whether `name` is a preset or custom profile of `c`. -/
def profileExists (c : Cfg) (name : String) : Bool :=
  (lookupProfile name PRESET_PROFILES).isSome
    || (lookupProfile name c.custom_profiles).isSome

/-- `Config.set_default_profile` (config.py, lines 110-116): returns the
`True`/`False` result together with the updated configuration. -/
def set_default_profile (c : Cfg) (profile_name : String) : Bool × Cfg :=
  if (lookupProfile profile_name PRESET_PROFILES).isSome
      || (lookupProfile profile_name c.custom_profiles).isSome then
    (true, { c with default_profile := profile_name })
  else (false, c)

/-! ### `main` (image_to_webp.py, lines 301-438) -/

/-- The parsed argparse namespace. -/
structure Args where
  input : String
  quality : Option Nat
  output : Option String
  recursive : Bool
  keep_originals : Bool
  delete_originals : Bool
  no_preserve_timestamps : Bool
  profile : Option String
  save_profile : Option String
  list_profiles : Bool
  set_default_profile : Option String
  lossless : Bool
  use_last : Bool
  pre : Option String
  suffix : Option String

/-- Python truthiness of an optional string argument. -/
def truthyStr (o : Option String) : Bool :=
  match o with
  | none => false
  | some s => s != ""

/-- The environment of one `main` invocation. -/
structure MainEnv where
  /-- the loaded `Config` state -/
  cfg : Cfg
  /-- `config.get_last_used_settings()` -/
  last_used : Option ProfileSettings
  /-- `os.path.isfile(args.input)` -/
  isFile : Bool
  /-- `os.path.isdir(args.input)` -/
  isDir : Bool
  /-- first component of `validate_paths(args.input, args.output)` -/
  pathsValid : Bool
  /-- environment for the single-file `convert_to_webp` call -/
  conv : ConvEnv
  /-- the directory walk's files, for the directory branch -/
  batchFiles : List String
  /-- the futures' results, for the directory branch -/
  batchOracle : String → FutureOutcome

/-- Observable result of one `main` invocation: the return code, the input
files for which a conversion was submitted, the input files for which
`os.remove` was invoked, the settings passed to the conversion (if one was
reached), and the final configuration state. -/
structure MainRes where
  exit : Nat
  converted : List String
  deleted : List String
  settingsUsed : Option ProfileSettings
  cfg : Cfg

/-- `main`, following the source line by line: list-profiles and
set-default-profile return early; settings come from last-used/profile/
default and are overridden by the flags (`args.lossless is not None` is
always true for a `store_true` flag, so `lossless` is always overridden);
the conflicting-flags check happens after the profile handling but before
path validation and any conversion. -/
def main (args : Args) (env : MainEnv) : MainRes :=
  let config := env.cfg
  if args.list_profiles then
    ⟨0, [], [], none, config⟩
  else if truthyStr args.set_default_profile then
    let r := set_default_profile config (args.set_default_profile.getD "")
    if r.1 then ⟨0, [], [], none, r.2⟩ else ⟨1, [], [], none, r.2⟩
  else
    let settings :=
      if args.use_last then
        match env.last_used with
        | some s => s
        | none => get_profile config none
      else if truthyStr args.profile then get_profile config args.profile
      else get_profile config none
    let settings := match args.quality with
      | some q => { settings with quality := q }
      | none => settings
    let settings := { settings with lossless := args.lossless }
    let settings :=
      if args.keep_originals then { settings with preserve_originals := true }
      else settings
    let settings :=
      if args.delete_originals then { settings with preserve_originals := false }
      else settings
    let settings :=
      if args.no_preserve_timestamps then { settings with preserve_timestamps := false }
      else settings
    -- `config.save_last_used_settings(...)` writes the config file only.
    let config :=
      if truthyStr args.save_profile then
        save_custom_profile config (args.save_profile.getD "") settings
      else config
    if args.keep_originals && args.delete_originals then
      ⟨1, [], [], none, config⟩
    else if env.pathsValid = false then
      ⟨1, [], [], none, config⟩
    else if env.isFile then
      let r := convert_to_webp env.conv args.input args.output settings.quality
        settings.preserve_timestamps settings.lossless
        (args.pre.getD "") (args.suffix.getD "")
      let del := if r.1 && !settings.preserve_originals then [args.input] else []
      ⟨0, [args.input], del, some settings, config⟩
    else if env.isDir then
      let br := process_directory env.batchFiles env.batchOracle
        settings.preserve_originals
      ⟨0, discoverFiles env.batchFiles, br.deleted, some settings, config⟩
    else
      ⟨1, [], [], none, config⟩

/-! ### Concrete fixtures used by witnesses and counterexamples -/

/-- A conversion environment where every call succeeds: the input exists,
is 1 MiB big, the volume has 1 GiB free, and no path collides. -/
def okConvEnv : ConvEnv :=
  { inputExists := true, getsize := some 1048576,
    diskFreeBytes := some 1073741824, openVerify := Except.ok (),
    makedirs := Except.ok (), fs := [], save := Except.ok () }

/-- Argparse namespace with every flag off. -/
def defaultArgs : Args :=
  { input := "photo.png", quality := none, output := none, recursive := false,
    keep_originals := false, delete_originals := false,
    no_preserve_timestamps := false, profile := none, save_profile := none,
    list_profiles := false, set_default_profile := none, lossless := false,
    use_last := false, pre := none, suffix := none }

/-- An invocation naming a profile that is neither a preset nor a custom
profile, on a valid single input file. -/
def argsUnknownProfile : Args := { defaultArgs with profile := some "no_such_profile" }

/-- A `main` environment for a valid single-file conversion against a fresh
default configuration. -/
def fileEnv : MainEnv :=
  { cfg := ⟨"balanced", []⟩, last_used := none, isFile := true, isDir := false,
    pathsValid := true, conv := okConvEnv, batchFiles := [],
    batchOracle := fun _ => FutureOutcome.raised "" }

/-- An invocation passing both `--keep-originals` and `--delete-originals`
together with `--list-profiles`. -/
def argsConflictingList : Args :=
  { defaultArgs with
    keep_originals := true, delete_originals := true, list_profiles := true }

/-- An invocation passing both `--keep-originals` and `--delete-originals`
with no early-returning option. -/
def argsConflicting : Args :=
  { defaultArgs with keep_originals := true, delete_originals := true }

/-! ## Lemmas about the result-collection loop -/

/-- Every entry of the futures list increments exactly one of the two
counters. -/
theorem processResults_total (preserve_originals : Bool)
    (l : List (String × FutureOutcome)) :
    (processResults preserve_originals l).successful
      + (processResults preserve_originals l).failed = l.length := by
  induction l with
  | nil => rfl
  | cons hd tl ih =>
    obtain ⟨input, fr⟩ := hd
    cases fr with
    | completed result =>
      by_cases h : result.1 = true
      · simp [processResults, h, List.length_cons]
        omega
      · simp only [Bool.not_eq_true] at h
        simp [processResults, h, List.length_cons]
        omega
    | raised m =>
      simp [processResults, List.length_cons]
      omega

/-- The counters of the collection loop distribute over list append. -/
theorem processResults_append (preserve_originals : Bool)
    (l₁ l₂ : List (String × FutureOutcome)) :
    (processResults preserve_originals (l₁ ++ l₂)).successful
        = (processResults preserve_originals l₁).successful
          + (processResults preserve_originals l₂).successful ∧
      (processResults preserve_originals (l₁ ++ l₂)).failed
        = (processResults preserve_originals l₁).failed
          + (processResults preserve_originals l₂).failed := by
  induction l₁ with
  | nil => simp [processResults]
  | cons hd tl ih =>
    obtain ⟨input, fr⟩ := hd
    cases fr with
    | completed result =>
      by_cases h : result.1 = true
      · simp [processResults, h, ih.1, ih.2]
        omega
      · simp only [Bool.not_eq_true] at h
        simp [processResults, h, ih.1, ih.2]
        omega
    | raised m =>
      simp [processResults, ih.1, ih.2]
      omega

/-- Deletions recorded by the collection loop: none when originals are
preserved, and each deleted file has a successful outcome entry. -/
theorem processResults_deleted (preserve_originals : Bool)
    (l : List (String × FutureOutcome)) :
    (preserve_originals = true →
        (processResults preserve_originals l).deleted = []) ∧
      (∀ f, f ∈ (processResults preserve_originals l).deleted →
        preserve_originals = false ∧
          ∃ r, (f, FutureOutcome.completed r) ∈ l ∧ r.1 = true) := by
  cases preserve_originals with
  | true =>
    refine ⟨fun _ => ?_, fun f hf => ?_⟩
    · induction l with
      | nil => rfl
      | cons hd tl ih =>
        obtain ⟨input, fr⟩ := hd
        cases fr with
        | completed result =>
          by_cases h : result.1 = true
          · simpa [processResults, h] using ih
          · simp only [Bool.not_eq_true] at h
            simpa [processResults, h] using ih
        | raised m => simpa [processResults] using ih
    · exfalso
      induction l with
      | nil => simp [processResults] at hf
      | cons hd tl ih =>
        obtain ⟨input, fr⟩ := hd
        cases fr with
        | completed result =>
          by_cases h : result.1 = true
          · exact ih (by simpa [processResults, h] using hf)
          · simp only [Bool.not_eq_true] at h
            exact ih (by simpa [processResults, h] using hf)
        | raised m => exact ih (by simpa [processResults] using hf)
  | false =>
    refine ⟨fun hc => by simp at hc, fun f hf => ?_⟩
    refine ⟨rfl, ?_⟩
    induction l with
    | nil => simp [processResults] at hf
    | cons hd tl ih =>
      obtain ⟨input, fr⟩ := hd
      cases fr with
      | completed result =>
        by_cases h : result.1 = true
        · simp only [processResults, h, if_true] at hf
          simp only [Bool.false_eq_true, if_false, List.mem_cons] at hf
          rcases hf with rfl | hf
          · exact ⟨result, by simp, h⟩
          · obtain ⟨r, hr, hs⟩ := ih hf
            exact ⟨r, List.mem_cons_of_mem _ hr, hs⟩
        · simp only [Bool.not_eq_true] at h
          obtain ⟨r, hr, hs⟩ := ih (by simpa [processResults, h] using hf)
          exact ⟨r, List.mem_cons_of_mem _ hr, hs⟩
      | raised m =>
        obtain ⟨r, hr, hs⟩ := ih (by simpa [processResults] using hf)
        exact ⟨r, List.mem_cons_of_mem _ hr, hs⟩

/-! ## Claims -/

/-- Claim C1: for every batch run of `process_directory`, each discovered
image file yields exactly one recorded outcome: when the run completes,
`successful + failed` equals the total number of discovered files, and no
submitted request is silently dropped. -/
theorem batch_totals_reconcile (files : List String)
    (oracle : String → FutureOutcome) (preserve_originals : Bool) :
    (process_directory files oracle preserve_originals).successful
      + (process_directory files oracle preserve_originals).failed
      = (discoverFiles files).length := by
  unfold process_directory
  rw [processResults_total]
  simp

/-- Claim C3: the batch orchestrator deletes an original input file only
after that file's conversion produced a successful outcome and only when
`preserve_originals` is false; with `preserve_originals = true` nothing is
deleted. -/
theorem deletion_only_after_success (preserve_originals : Bool)
    (entries : List (String × FutureOutcome)) :
    (preserve_originals = true →
        (processResults preserve_originals entries).deleted = []) ∧
      (∀ f, f ∈ (processResults preserve_originals entries).deleted →
        preserve_originals = false ∧
          ∃ r, (f, FutureOutcome.completed r) ∈ entries ∧ r.1 = true) :=
  processResults_deleted preserve_originals entries

/-- Witness for C3: with `preserve_originals = true` a successful batch of
one file deletes nothing. -/
theorem deletion_only_after_success_witness :
    (processResults true
        [("a.png", FutureOutcome.completed (true, "a.png", Sum.inr "a.webp"))]).deleted
      = [] :=
  (deletion_only_after_success true
    [("a.png", FutureOutcome.completed (true, "a.png", Sum.inr "a.webp"))]).1 rfl

/-- Claim C4: `convert_to_webp` never raises past its boundary: for every
environment it returns an outcome tuple whose middle component is the input
path, carrying an output path on success and a captured error on failure. -/
theorem convert_to_webp_total_outcome (env : ConvEnv) (input_path : String)
    (output_path : Option String) (quality : Nat)
    (preserve_timestamps lossless : Bool) (pre suffix : String) :
    (convert_to_webp env input_path output_path quality preserve_timestamps
        lossless pre suffix).2.1 = input_path ∧
      ((convert_to_webp env input_path output_path quality preserve_timestamps
          lossless pre suffix).1 = true →
        ∃ p, (convert_to_webp env input_path output_path quality
            preserve_timestamps lossless pre suffix).2.2 = Sum.inr p) ∧
      ((convert_to_webp env input_path output_path quality preserve_timestamps
          lossless pre suffix).1 = false →
        ∃ e, (convert_to_webp env input_path output_path quality
            preserve_timestamps lossless pre suffix).2.2 = Sum.inl e) := by
  obtain ⟨ie, gs, df, ov, md, fs, sv⟩ := env
  cases ie with
  | false => simp [convert_to_webp]
  | true =>
    by_cases hd : check_disk_space df (estimate_output_size gs + MIN_FREE_SPACE_MB) = false
    · simp [convert_to_webp, hd]
    · rw [Bool.not_eq_false] at hd
      rcases ov with (m | m) | u
      · simp [convert_to_webp, hd]
      · simp [convert_to_webp, hd]
      · rcases md with (m | m) | u'
        · simp [convert_to_webp, hd]
        · simp [convert_to_webp, hd]
        · rcases sv with (m | m) | u''
          · simp [convert_to_webp, hd]
          · simp [convert_to_webp, hd]
          · simp [convert_to_webp, hd]

/-- Witness for C4 at an environment whose free-space query raises: the
failure is captured into the outcome. -/
theorem convert_to_webp_total_outcome_witness :
    ∃ e, (convert_to_webp
        { inputExists := true, getsize := some 1048576, diskFreeBytes := none,
          openVerify := Except.ok (), makedirs := Except.ok (), fs := [],
          save := Except.ok () }
        "photo.png" none 80 true false "" "").2.2 = Sum.inl e :=
  (convert_to_webp_total_outcome
    { inputExists := true, getsize := some 1048576, diskFreeBytes := none,
      openVerify := Except.ok (), makedirs := Except.ok (), fs := [],
      save := Except.ok () }
    "photo.png" none 80 true false "" "").2.2 rfl

/-- Claim C8: with a successful size query and free-space query, the
precheck estimates `0.75 × size` bytes expressed in MB plus the fixed
500 MB floor, and passes iff the free space is at least that estimate. -/
theorem disk_space_estimate_spec (s free : Nat) :
    check_disk_space (some free)
        (estimate_output_size (some s) + MIN_FREE_SPACE_MB) = true
      ↔ (free : ℚ) / (1024 * 1024) ≥ ((s : ℚ) * (3 / 4)) / (1024 * 1024) + 500 := by
  simp [check_disk_space, estimate_output_size, MIN_FREE_SPACE_MB]

/-- Witness for C8: a 4 MiB input needs 503 MB, which 525 MiB of free
space satisfies. -/
theorem disk_space_estimate_spec_witness :
    check_disk_space (some (525 * 1024 * 1024))
        (estimate_output_size (some (4 * 1024 * 1024)) + MIN_FREE_SPACE_MB) = true :=
  (disk_space_estimate_spec (4 * 1024 * 1024) (525 * 1024 * 1024)).mpr (by norm_num)

/-- Claim C9: a failing free-space query makes `check_disk_space` return
`false` (fails closed); `convert_to_webp` then fails that one file with the
disk-space error in its own outcome, and a batch containing that outcome
still records every other outcome (no abort). -/
theorem disk_space_fail_closed (env : ConvEnv) (input_path : String)
    (output_path : Option String) (quality : Nat)
    (preserve_timestamps lossless : Bool) (pre suffix : String)
    (required_mb : ℚ) (hnone : env.diskFreeBytes = none) :
    check_disk_space env.diskFreeBytes required_mb = false ∧
      (env.inputExists = true →
        convert_to_webp env input_path output_path quality preserve_timestamps
            lossless pre suffix
          = (false, input_path,
              Sum.inl (ConvErr.insufficientSpace
                (estimate_output_size env.getsize + MIN_FREE_SPACE_MB)))) ∧
      (∀ (before after : List (String × FutureOutcome)) (preserve : Bool),
        env.inputExists = true →
        (processResults preserve (before
              ++ (input_path, FutureOutcome.completed
                    (convert_to_webp env input_path output_path quality
                      preserve_timestamps lossless pre suffix)) :: after)).failed
            = (processResults preserve before).failed + 1
              + (processResults preserve after).failed ∧
          (processResults preserve (before
              ++ (input_path, FutureOutcome.completed
                    (convert_to_webp env input_path output_path quality
                      preserve_timestamps lossless pre suffix)) :: after)).successful
            = (processResults preserve before).successful
              + (processResults preserve after).successful) := by
  have hc : ∀ r, check_disk_space env.diskFreeBytes r = false := by
    intro r
    simp [check_disk_space, hnone]
  have hconv : env.inputExists = true →
      convert_to_webp env input_path output_path quality preserve_timestamps
          lossless pre suffix
        = (false, input_path,
            Sum.inl (ConvErr.insufficientSpace
              (estimate_output_size env.getsize + MIN_FREE_SPACE_MB))) := by
    intro hex
    simp [convert_to_webp, hex, hc]
  refine ⟨hc required_mb, hconv, ?_⟩
  intro before after preserve hex
  have happ := processResults_append preserve before
    ((input_path, FutureOutcome.completed
        (convert_to_webp env input_path output_path quality preserve_timestamps
          lossless pre suffix)) :: after)
  have hmid_f : (processResults preserve
      ((input_path, FutureOutcome.completed
          (convert_to_webp env input_path output_path quality preserve_timestamps
            lossless pre suffix)) :: after)).failed
      = (processResults preserve after).failed + 1 := by
    rw [hconv hex]
    simp [processResults]
  have hmid_s : (processResults preserve
      ((input_path, FutureOutcome.completed
          (convert_to_webp env input_path output_path quality preserve_timestamps
            lossless pre suffix)) :: after)).successful
      = (processResults preserve after).successful := by
    rw [hconv hex]
    simp [processResults]
  constructor
  · rw [happ.2, hmid_f]
    omega
  · rw [happ.1, hmid_s]

/-- Witness for C9: concrete failing-query environment. -/
theorem disk_space_fail_closed_witness :
    check_disk_space none 500 = false ∧
      convert_to_webp
          { inputExists := true, getsize := none, diskFreeBytes := none,
            openVerify := Except.ok (), makedirs := Except.ok (), fs := [],
            save := Except.ok () }
          "a.png" none 80 true false "" ""
        = (false, "a.png", Sum.inl (ConvErr.insufficientSpace (1 + 500))) := by
  have h := disk_space_fail_closed
    { inputExists := true, getsize := none, diskFreeBytes := none,
      openVerify := Except.ok (), makedirs := Except.ok (), fs := [],
      save := Except.ok () }
    "a.png" none 80 true false "" "" 500 rfl
  exact ⟨h.1, h.2.1 rfl⟩

/-- Claim C10: `set_default_profile` returns `True` and updates the default
iff the name is an existing preset or custom profile, leaves the
configuration unchanged otherwise, and preserves the invariant that the
default profile names an existing profile. -/
theorem set_default_profile_spec (c : Cfg) (name : String) :
    ((set_default_profile c name).1 = true ↔ profileExists c name = true) ∧
      ((set_default_profile c name).1 = true →
        (set_default_profile c name).2.default_profile = name ∧
          (set_default_profile c name).2.custom_profiles = c.custom_profiles) ∧
      ((set_default_profile c name).1 = false →
        (set_default_profile c name).2 = c) ∧
      (profileExists c c.default_profile = true →
        profileExists (set_default_profile c name).2
            ((set_default_profile c name).2.default_profile) = true) := by
  unfold set_default_profile profileExists
  cases h : ((lookupProfile name PRESET_PROFILES).isSome
      || (lookupProfile name c.custom_profiles).isSome) with
  | true => simp [h]
  | false => simp [h]

/-- Witness for C10: setting the default to the `space_saver` preset
succeeds and records that name. -/
theorem set_default_profile_spec_witness :
    (set_default_profile ⟨"balanced", []⟩ "space_saver").1 = true ∧
      (set_default_profile ⟨"balanced", []⟩ "space_saver").2.default_profile
        = "space_saver" := by
  have h := set_default_profile_spec ⟨"balanced", []⟩ "space_saver"
  have h1 : (set_default_profile ⟨"balanced", []⟩ "space_saver").1 = true :=
    h.1.mpr (by decide)
  exact ⟨h1, (h.2.1 h1).1⟩

/-- Counterexample to C5: discovery accepts `photo.gif`, whose extension
`.gif` is in `SUPPORTED_FORMATS` but not in the claimed set
`{.png, .jpg, .jpeg}`. -/
theorem supported_formats_cex :
    ".gif" ∈ SUPPORTED_FORMATS ∧
      ([".png", ".jpg", ".jpeg"].contains ".gif") = false ∧
      isSupported "photo.gif" = true ∧
      ([".png", ".jpg", ".jpeg"].any
        (fun ext => strEndsWith (lowerStr "photo.gif") ext)) = false := by
  refine ⟨by decide, by decide, rfl, rfl⟩

/-- Claim C5 as amended: the supported-format set of `image_to_webp.py` is
exactly `{.png, .jpg, .jpeg, .gif, .bmp, .tiff}`; a file enters discovery
iff its lowercased name ends with one of these, and files failing the
filter are never part of the discovered batch (hence never counted). -/
theorem supported_formats_amended :
    SUPPORTED_FORMATS = [".png", ".jpg", ".jpeg", ".gif", ".bmp", ".tiff"] ∧
      (∀ (files : List String) (f : String),
        f ∈ discoverFiles files ↔ f ∈ files ∧ isSupported f = true) ∧
      (∀ (files : List String) (f : String),
        isSupported f = false → f ∉ discoverFiles files) := by
  refine ⟨rfl, fun files f => List.mem_filter, fun files f h hmem => ?_⟩
  have hs := (List.mem_filter.mp hmem).2
  rw [h] at hs
  exact absurd hs (by simp)

/-- Witness for C5 (amended): `photo.gif` is discovered, `notes.txt` is
not. -/
theorem supported_formats_amended_witness :
    "photo.gif" ∈ discoverFiles ["photo.gif", "notes.txt"] ∧
      "notes.txt" ∉ discoverFiles ["photo.gif", "notes.txt"] := by
  have h := supported_formats_amended
  exact ⟨(h.2.1 ["photo.gif", "notes.txt"] "photo.gif").mpr ⟨by simp, rfl⟩,
    h.2.2 ["photo.gif", "notes.txt"] "notes.txt" rfl⟩

/-- Counterexample to C6: invoking with the unknown profile name
`no_such_profile` does not abort: `main` exits 0, converts the input file,
and silently uses the `balanced` preset's settings. -/
theorem unknown_profile_cex :
    (main argsUnknownProfile fileEnv).exit = 0 ∧
      (main argsUnknownProfile fileEnv).converted = ["photo.png"] ∧
      (main argsUnknownProfile fileEnv).settingsUsed = some balanced := by
  refine ⟨rfl, rfl, by decide⟩

/-- Claim C6 as amended: an unknown profile name is not rejected:
`Config.get_profile` silently falls back to the `balanced` preset and the
invocation proceeds with those settings. -/
theorem unknown_profile_fallback (c : Cfg) (name : String) (h0 : name ≠ "")
    (h1 : lookupProfile name c.custom_profiles = none)
    (h2 : lookupProfile name PRESET_PROFILES = none) :
    get_profile c (some name) = balanced := by
  simp [get_profile, h0, h1, h2]

/-- Witness for C6 (amended): the fallback at a concrete unknown name. -/
theorem unknown_profile_fallback_witness :
    get_profile ⟨"balanced", []⟩ (some "no_such_profile") = balanced :=
  unknown_profile_fallback ⟨"balanced", []⟩ "no_such_profile" (by decide) rfl
    (by decide)

/-- Counterexample to C7: an invocation requesting both `--keep-originals`
and `--delete-originals` together with `--list-profiles` exits 0 without
reporting any configuration error. -/
theorem conflicting_flags_cex :
    argsConflictingList.keep_originals = true ∧
      argsConflictingList.delete_originals = true ∧
      (main argsConflictingList fileEnv).exit = 0 :=
  ⟨rfl, rfl, rfl⟩

/-- Claim C7 as amended: for every invocation that requests both
keep-originals and delete-originals and is not a list-profiles or
set-default-profile invocation (those return before the conflict check),
`main` aborts with exit code 1 before any file is converted or deleted. -/
theorem conflicting_flags_abort (args : Args) (env : MainEnv)
    (h1 : args.list_profiles = false)
    (h2 : truthyStr args.set_default_profile = false)
    (h3 : args.keep_originals = true) (h4 : args.delete_originals = true) :
    (main args env).exit = 1 ∧ (main args env).converted = [] ∧
      (main args env).deleted = [] := by
  simp [main, h1, h2, h3, h4]

/-- Witness for C7 (amended): the concrete conflicting invocation aborts. -/
theorem conflicting_flags_abort_witness :
    (main argsConflicting fileEnv).exit = 1 ∧
      (main argsConflicting fileEnv).converted = [] ∧
      (main argsConflicting fileEnv).deleted = [] :=
  conflicting_flags_abort argsConflicting fileEnv rfl rfl rfl rfl

/-! ## Injectivity of the collision counter's decimal rendering -/

/-- `digitVal` decodes `digitChar` on single digits. -/
theorem digitVal_digitChar (d : Nat) (hd : d < 10) :
    digitVal (digitChar d) = d := by
  interval_cases d <;> rfl

/-- With enough fuel, `valDigits` decodes `natToStrAux`. -/
theorem valDigits_natToStrAux (fuel : Nat) :
    ∀ n, n < 10 ^ fuel → valDigits (natToStrAux fuel n) = n := by
  induction fuel with
  | zero =>
    intro n hn
    interval_cases n
    rfl
  | succ fuel ih =>
    intro n hn
    by_cases h : n < 10
    · simp only [natToStrAux, if_pos h, valDigits, List.foldl_cons, List.foldl_nil]
      rw [digitVal_digitChar n h]
      omega
    · have hdiv : n / 10 < 10 ^ fuel := by
        rw [Nat.div_lt_iff_lt_mul (by norm_num)]
        calc n < 10 ^ (fuel + 1) := hn
        _ = 10 ^ fuel * 10 := by ring
      simp only [natToStrAux, if_neg h, valDigits, List.foldl_append,
        List.foldl_cons, List.foldl_nil]
      have hrec := ih (n / 10) hdiv
      simp only [valDigits] at hrec
      rw [hrec, digitVal_digitChar (n % 10) (Nat.mod_lt n (by norm_num))]
      omega

/-- `natToStr` is injective: distinct counters render to distinct
strings. -/
theorem natToStr_inj (a b : Nat) (h : natToStr a = natToStr b) : a = b := by
  have hdata : natToStrAux (a + 1) a = natToStrAux (b + 1) b :=
    congrArg String.data h
  have hsmall : ∀ n : Nat, n < 10 ^ (n + 1) := fun n =>
    calc n < 10 ^ n := Nat.lt_pow_self (by norm_num) n
    _ ≤ 10 ^ (n + 1) := Nat.pow_le_pow_right (by norm_num) (Nat.le_succ n)
  calc a = valDigits (natToStrAux (a + 1) a) :=
        (valDigits_natToStrAux (a + 1) a (hsmall a)).symm
  _ = valDigits (natToStrAux (b + 1) b) := by rw [hdata]
  _ = b := valDigits_natToStrAux (b + 1) b (hsmall b)

/-! ## The collision-counter search loop -/

/-- If some counter within the fuel is free, `findFree` returns the least
free counter at or above the start. -/
theorem findFree_spec (occ : String → Bool) (mk : Nat → String) :
    ∀ (fuel c : Nat), (∃ k, k < fuel ∧ occ (mk (c + k)) = false) →
      occ (mk (findFree occ mk fuel c)) = false ∧
        c ≤ findFree occ mk fuel c ∧
        ∀ m, c ≤ m → m < findFree occ mk fuel c → occ (mk m) = true := by
  intro fuel
  induction fuel with
  | zero =>
    intro c ⟨k, hk, _⟩
    omega
  | succ fuel ih =>
    intro c ⟨k, hk, hfree⟩
    by_cases h : occ (mk c) = true
    · have hk0 : k ≠ 0 := by
        intro h0
        rw [h0, Nat.add_zero] at hfree
        rw [h] at hfree
        exact Bool.true_eq_false.mp hfree
      obtain ⟨k', rfl⟩ := Nat.exists_eq_succ_of_ne_zero hk0
      have hex' : ∃ j, j < fuel ∧ occ (mk (c + 1 + j)) = false :=
        ⟨k', by omega, by rw [show c + 1 + k' = c + (k' + 1) by ring]; exact hfree⟩
      obtain ⟨h1, h2, h3⟩ := ih (c + 1) hex'
      rw [show findFree occ mk (fuel + 1) c = findFree occ mk fuel (c + 1) by
        simp [findFree, h]]
      refine ⟨h1, by omega, fun m hm1 hm2 => ?_⟩
      by_cases hmc : m = c
      · rw [hmc]; exact h
      · exact h3 m (by omega) hm2
    · rw [Bool.not_eq_true] at h
      rw [show findFree occ mk (fuel + 1) c = c by simp [findFree, h]]
      exact ⟨h, Nat.le_refl c, fun m hm1 hm2 => by omega⟩

/-- Pigeonhole: since the candidate names for distinct counters are
distinct strings, some counter in `1 .. fs.length + 1` names a path not in
`fs`. -/
theorem exists_free_counter (fs : List String) (mk : Nat → String)
    (hinj : ∀ a b, mk a = mk b → a = b) :
    ∃ k, k < fs.length + 1 ∧ decide (mk (1 + k) ∈ fs) = false := by
  by_contra hcon
  push_neg at hcon
  have hmem : ∀ k, k < fs.length + 1 → mk (1 + k) ∈ fs := by
    intro k hk
    have hne := hcon k hk
    have hT : decide (mk (1 + k) ∈ fs) = true := by
      cases hdec : decide (mk (1 + k) ∈ fs) with
      | false => exact absurd hdec hne
      | true => rfl
    exact of_decide_eq_true hT
  have hinj' : Function.Injective (fun k => mk (1 + k)) := by
    intro a b hab
    have := hinj (1 + a) (1 + b) hab
    omega
  have hsub : (Finset.range (fs.length + 1)).image (fun k => mk (1 + k))
      ⊆ fs.toFinset := by
    intro x hx
    rw [Finset.mem_image] at hx
    obtain ⟨k, hk, rfl⟩ := hx
    rw [List.mem_toFinset]
    exact hmem k (Finset.mem_range.mp hk)
  have hcard := Finset.card_le_card hsub
  rw [Finset.card_image_of_injective _ hinj', Finset.card_range] at hcard
  have := List.toFinset_card_le fs
  omega

/-- The character data of a candidate name's basename part. -/
theorem candData (base s ext : String) :
    (base ++ "(" ++ s ++ ")" ++ ext).data
      = base.data ++ '(' :: (s.data ++ ')' :: ext.data) := by
  simp [String.data_append]

/-- Whether a candidate basename starts with `/` does not depend on the
counter part. -/
theorem cand_startsWith (base s t ext : String) :
    strStartsWith (base ++ "(" ++ s ++ ")" ++ ext) "/"
      = strStartsWith (base ++ "(" ++ t ++ ")" ++ ext) "/" := by
  unfold strStartsWith
  simp only [String.toList]
  rw [candData, candData]
  cases hb : base.data with
  | nil => simp [List.isPrefixOf]
  | cons c cs => simp [List.isPrefixOf]

/-- String-level left cancellation. -/
theorem str_append_cancel_left (a x y : String) (h : a ++ x = a ++ y) :
    x = y := by
  apply String.ext
  have hd := congrArg String.data h
  rw [String.data_append, String.data_append] at hd
  exact List.append_cancel_left hd

/-- Equal candidate basenames force equal counters. -/
theorem cand_core_inj (base ext : String) (a b : Nat)
    (h : base ++ "(" ++ natToStr a ++ ")" ++ ext
        = base ++ "(" ++ natToStr b ++ ")" ++ ext) : a = b := by
  have hd := congrArg String.data h
  rw [candData, candData] at hd
  have h1 := List.append_cancel_left hd
  injection h1 with _ h2
  have h3 := List.append_cancel_right h2
  exact natToStr_inj a b (String.ext h3)

/-- The candidate paths of `generate_unique_filename` for distinct counters
are distinct. -/
theorem uniqueCand_inj (p pre suffix : String) (a b : Nat)
    (h : uniqueCand p pre suffix a = uniqueCand p pre suffix b) : a = b := by
  unfold uniqueCand joinPath at h
  have hsw := cand_startsWith (uniqueBase p pre suffix) (natToStr a) (natToStr b)
    ((splitext (basename p)).2)
  cases hsa : strStartsWith
      (uniqueBase p pre suffix ++ "(" ++ natToStr a ++ ")"
        ++ (splitext (basename p)).2) "/" with
  | true =>
    have hsb := hsw.symm.trans hsa
    rw [hsa, hsb] at h
    simp only [if_true] at h
    exact cand_core_inj _ _ a b h
  | false =>
    have hsb := hsw.symm.trans hsa
    rw [hsa, hsb] at h
    simp only [Bool.false_eq_true, if_false] at h
    by_cases hd : (dirname p = "" || strEndsWith (dirname p) "/") = true
    · rw [hd] at h
      simp only [if_true] at h
      exact cand_core_inj _ _ a b (str_append_cancel_left _ _ _ h)
    · rw [Bool.not_eq_true] at hd
      rw [hd] at h
      simp only [Bool.false_eq_true, if_false] at h
      exact cand_core_inj _ _ a b (str_append_cancel_left _ _ _ h)

/-- `generate_unique_filename` written in terms of the first-choice target
and candidate paths (definitional unfolding of its `let` bindings). -/
theorem guf_eq (fs : List String) (p pre suffix : String) :
    generate_unique_filename fs p pre suffix
      = if uniqueTarget p pre suffix ∈ fs then
          uniqueCand p pre suffix
            (findFree (fun q => decide (q ∈ fs)) (uniqueCand p pre suffix)
              (fs.length + 1) 1)
        else uniqueTarget p pre suffix := by
  unfold generate_unique_filename uniqueTarget uniqueCand uniqueBase
  rfl

/-- Claim C2: the output-name resolver keeps the directory of the output
path and uses the filename `{prefix}{basename}{suffix}` plus the extension
when that path is free; otherwise it appends `(n)` before the extension for
the least positive `n` whose path is free.  The returned path never names
an existing file, and a second run over a filesystem extended with the
first run's output yields the `(1)` name. -/
theorem generate_unique_filename_spec (fs : List String) (p pre suffix : String) :
    generate_unique_filename fs p pre suffix ∉ fs ∧
      (uniqueTarget p pre suffix ∉ fs →
        generate_unique_filename fs p pre suffix = uniqueTarget p pre suffix) ∧
      (uniqueTarget p pre suffix ∈ fs →
        ∃ n, 1 ≤ n ∧
          generate_unique_filename fs p pre suffix = uniqueCand p pre suffix n ∧
          uniqueCand p pre suffix n ∉ fs ∧
          ∀ m, 1 ≤ m → m < n → uniqueCand p pre suffix m ∈ fs) ∧
      (uniqueTarget p pre suffix ∉ fs →
        uniqueCand p pre suffix 1 ≠ uniqueTarget p pre suffix →
        uniqueCand p pre suffix 1 ∉ fs →
        generate_unique_filename (uniqueTarget p pre suffix :: fs) p pre suffix
          = uniqueCand p pre suffix 1) := by
  by_cases ht : uniqueTarget p pre suffix ∈ fs
  · have hex := exists_free_counter fs (uniqueCand p pre suffix)
      (uniqueCand_inj p pre suffix)
    obtain ⟨hfree, hge, hmin⟩ := findFree_spec (fun q => decide (q ∈ fs))
      (uniqueCand p pre suffix) (fs.length + 1) 1 hex
    have hguf : generate_unique_filename fs p pre suffix
        = uniqueCand p pre suffix
            (findFree (fun q => decide (q ∈ fs)) (uniqueCand p pre suffix)
              (fs.length + 1) 1) := by
      rw [guf_eq, if_pos ht]
    have hnot : uniqueCand p pre suffix
        (findFree (fun q => decide (q ∈ fs)) (uniqueCand p pre suffix)
          (fs.length + 1) 1) ∉ fs := by
      simp only [decide_eq_false_iff_not] at hfree
      exact hfree
    refine ⟨by rw [hguf]; exact hnot, fun hc => absurd ht hc,
      fun _ => ⟨_, hge, hguf, hnot, fun m h1 h2 => ?_⟩, fun hc => absurd ht hc⟩
    exact of_decide_eq_true (hmin m h1 h2)
  · have hguf : generate_unique_filename fs p pre suffix
        = uniqueTarget p pre suffix := by
      rw [guf_eq, if_neg ht]
    refine ⟨by rw [hguf]; exact ht, fun _ => hguf, fun hc => absurd hc ht,
      fun _ hne hnot1 => ?_⟩
    have ht' : uniqueTarget p pre suffix ∈ uniqueTarget p pre suffix :: fs :=
      List.mem_cons_self _ _
    have hex' : ∃ k, k < (uniqueTarget p pre suffix :: fs).length + 1 ∧
        (fun q => decide (q ∈ uniqueTarget p pre suffix :: fs))
          (uniqueCand p pre suffix (1 + k)) = false := by
      refine ⟨0, by simp, ?_⟩
      simp only [decide_eq_false_iff_not, List.mem_cons]
      intro hc
      rcases hc with hc | hc
      · exact hne hc
      · exact hnot1 hc
    obtain ⟨hfree', hge', hmin'⟩ := findFree_spec
      (fun q => decide (q ∈ uniqueTarget p pre suffix :: fs))
      (uniqueCand p pre suffix)
      ((uniqueTarget p pre suffix :: fs).length + 1) 1 hex'
    have hone : findFree (fun q => decide (q ∈ uniqueTarget p pre suffix :: fs))
        (uniqueCand p pre suffix)
        ((uniqueTarget p pre suffix :: fs).length + 1) 1 = 1 := by
      by_contra hne1
      have h1lt : 1 < findFree
          (fun q => decide (q ∈ uniqueTarget p pre suffix :: fs))
          (uniqueCand p pre suffix)
          ((uniqueTarget p pre suffix :: fs).length + 1) 1 := by omega
      have := of_decide_eq_true (hmin' 1 (Nat.le_refl 1) h1lt)
      rcases List.mem_cons.mp this with hc | hc
      · exact hne hc
      · exact hnot1 hc
    rw [guf_eq, if_pos ht', hone]

/-- Witness for C2: over a disk holding `x.webp`, resolving `x.webp` again
avoids the existing file; over an empty disk it returns the target name
itself. -/
theorem generate_unique_filename_spec_witness :
    generate_unique_filename ["x.webp"] "x.webp" "" "" ∉ ["x.webp"] ∧
      generate_unique_filename [] "x.webp" "" "" = uniqueTarget "x.webp" "" "" ∧
      uniqueTarget "x.webp" "" "" = "x.webp" := by
  refine ⟨(generate_unique_filename_spec ["x.webp"] "x.webp" "" "").1,
    (generate_unique_filename_spec [] "x.webp" "" "").2.1 (by simp), by decide⟩

end ImageToWebp
